import Mathlib

/-!
Shallow embedding of the SecureChat repository (TypeScript) in Lean 4.

The embedding follows the source files:
  * `src/client/src/lib/encryption.ts` — key derivation and the AES wrapper;
  * `src/server/storage-memory.ts`     — the in-memory `MemoryStorage`;
  * `src/server/routes.ts`             — the socket handlers and HTTP routes;
  * the client chat page               — the socket event handlers
    (`receive_message`, `message_sent`, `message_status_update`).

JavaScript `Map`s and arrays become Lean lists; `Date.now()` becomes an
explicit `Nat` parameter; `nanoid()` becomes an explicit fresh-id parameter;
socket emissions become an explicit list of `Emit` values.  The crypto-js
AES primitive is an external library, so the two wrapper functions are
parameterised by the underlying cipher pipeline; a small concrete cipher
`toyEncrypt`/`toyDecrypt` instantiates the parameters in closed statements.
-/

set_option autoImplicit false

namespace SecureChat

/-- Message delivery status, the union type `'sent' | 'delivered' | 'read'`. -/
inductive MStatus where
  | sent
  | delivered
  | read
deriving DecidableEq, Repr

/-- `IMessage` from `@shared/schema`, as stored by `MemoryStorage`. -/
structure Msg where
  _id : String
  senderId : String
  receiverId : String
  encryptedContent : String
  timestamp : Nat
  status : MStatus
deriving DecidableEq, Repr

/-- `IUser` from `@shared/schema`, as stored by `MemoryStorage`.
`socketId` is optional on the TypeScript interface. -/
structure SUser where
  _id : String
  username : String
  email : String
  passwordHash : String
  avatar : String
  contacts : List String
  isOnline : Bool
  lastSeen : Nat
  socketId : Option String
deriving DecidableEq, Repr

/-! ## `src/client/src/lib/encryption.ts` -/

/-- JavaScript `[userId1, userId2].sort()` on a two-element array of strings:
the default comparator orders strings, and the sort is stable. -/
def jsSort2 (a b : String) : String × String :=
  if b < a then (b, a) else (a, b)

/-- `generateSharedKey` from `encryption.ts`: sort the two ids, join with
`"-"`, hash.  The SHA-256 call is crypto-js library code, so it is the
parameter `hash`. -/
def generateSharedKey (hash : String → String) (userId1 userId2 : String) : String :=
  let sortedIds := jsSort2 userId1 userId2
  hash (sortedIds.1 ++ "-" ++ sortedIds.2)

/-- `encryptMessage` from `encryption.ts`: a direct call into the crypto-js
AES encrypt-and-stringify pipeline, the parameter `aesEncrypt`. -/
def encryptMessage (aesEncrypt : String → String → String) (message key : String) : String :=
  aesEncrypt message key

/-- `decryptMessage` from `encryption.ts`.  The `try` body — AES decryption
followed by `bytes.toString(Utf8)` — is the crypto-js pipeline, the
parameter `aesDecryptUtf8`; `none` models a thrown exception anywhere in
that pipeline, which the `catch` turns into the placeholder string. -/
def decryptMessage (aesDecryptUtf8 : String → String → Option String)
    (encryptedMessage key : String) : String :=
  match aesDecryptUtf8 encryptedMessage key with
  | some s => s
  | none => "⚠️ Error decrypting message"

/-- A concrete symmetric cipher used to instantiate the pipeline parameters
in closed statements: ciphertext is the key, a separator, then the
plaintext. -/
def toyEncrypt (message key : String) : String :=
  key ++ ":" ++ message

/-- Inverse of `toyEncrypt`: succeeds exactly when the ciphertext starts
with the given key and the separator, failing (like a thrown crypto-js
error) otherwise. -/
def toyDecrypt (c key : String) : Option String :=
  if c.take (key.length + 1) = key ++ ":" then some (c.drop (key.length + 1)) else none

/-! ## `src/server/storage-memory.ts` — `MemoryStorage`

`messagesArray` becomes a `List Msg`; `usersMap` (a JavaScript `Map` keyed
by `_id`, so keys are unique) becomes a `List SUser` looked up by `_id`;
mutating the object found by `find`/`Map.get` becomes replacing the first
matching element. -/

/-- `MemoryStorage.updateMessageStatus`: find the first message with the
given id and overwrite its status; no message, no change.  The overwrite is
unconditional — the current status is not consulted. -/
def updateMessageStatus (msgs : List Msg) (messageId : String) (status : MStatus) : List Msg :=
  match msgs with
  | [] => []
  | m :: rest =>
    if m._id = messageId then { m with status := status } :: rest
    else m :: updateMessageStatus rest messageId status

/-- `MemoryStorage.updateUserStatus`: find the user by id and update the
presence fields; no user, no change.  The `if (socketId)` guard is
JavaScript truthiness, so an absent or empty socket id leaves the stored
binding alone. -/
def updateUserStatus (users : List SUser) (userId : String) (isOnline : Bool)
    (socketId : Option String) (now : Nat) : List SUser :=
  match users with
  | [] => []
  | u :: rest =>
    if u._id = userId then
      { u with isOnline := isOnline, lastSeen := now,
               socketId := match socketId with
                 | some s => if s = "" then u.socketId else some s
                 | none => u.socketId } :: rest
    else u :: updateUserStatus rest userId isOnline socketId now

/-- `MemoryStorage.sendMessage`: build the message with status `'sent'`,
push it onto `messagesArray`, return it.  `nanoid()` and `Date.now()` are
the explicit parameters `freshId` and `now`. -/
def sendMessage (msgs : List Msg) (freshId senderId receiverId encryptedContent : String)
    (now : Nat) : List Msg × Msg :=
  let message : Msg := { _id := freshId, senderId := senderId, receiverId := receiverId,
                         encryptedContent := encryptedContent, timestamp := now,
                         status := MStatus.sent }
  (msgs ++ [message], message)

/-- Status of the first stored message with the given id, if any. -/
def statusOf (msgs : List Msg) (messageId : String) : Option MStatus :=
  (msgs.find? (fun m => m._id = messageId)).map (fun m => m.status)

/-- `usersMap.get(id)` as a first-match lookup. -/
def getUserById (users : List SUser) (userId : String) : Option SUser :=
  users.find? (fun u => u._id = userId)

/-! ## `src/server/routes.ts` — socket handlers -/

/-- Payload of a socket emission. -/
inductive Payload where
  | pmsg (m : Msg)
  | pstatus (messageId : String) (status : MStatus)
  | perr (s : String)
deriving DecidableEq, Repr

/-- Where an emission goes: `io.to(room).emit(...)` targets the room named
by a user id (delivered only to channels joined to it), while
`socket.emit(...)` targets the sending socket directly. -/
inductive Target where
  | room (rid : String)
  | senderSocket
deriving DecidableEq, Repr

/-- One socket emission. -/
structure Emit where
  target : Target
  event : String
  payload : Payload
deriving DecidableEq, Repr

/-- The server's shared state: `usersMap` and `messagesArray`. -/
structure ServerState where
  users : List SUser
  messages : List Msg
deriving DecidableEq, Repr

/-- The body of the `setTimeout` scheduled by the `send_message` handler:
which message to mark delivered, and whose room to notify. -/
structure DelayedUpdate where
  messageId : String
  senderId : String
deriving DecidableEq, Repr

/-- `receiver?.isOnline` under JavaScript truthiness: an unknown receiver
(`undefined`) is falsy. -/
def receiverOnline (users : List SUser) (userId : String) : Bool :=
  match getUserById users userId with
  | some u => u.isOnline
  | none => false

/-- The `send_message` socket handler in `routes.ts`: persist via
`storage.sendMessage`, emit `receive_message` to the receiver's room, emit
`message_sent` to the sender's socket, and — when the stored receiver is
online — schedule the delayed `'delivered'` update.  Returns the new state,
the immediate emissions in order, and the scheduled update if any. -/
def sendMessageHandler (s : ServerState) (receiverId senderId encryptedContent : String)
    (freshId : String) (now : Nat) : ServerState × List Emit × Option DelayedUpdate :=
  let r := sendMessage s.messages freshId senderId receiverId encryptedContent now
  let message := r.2
  let s' : ServerState := { s with messages := r.1 }
  let emits : List Emit :=
    [{ target := Target.room receiverId, event := "receive_message",
       payload := Payload.pmsg message },
     { target := Target.senderSocket, event := "message_sent",
       payload := Payload.pmsg message }]
  let delayed : Option DelayedUpdate :=
    if receiverOnline s'.users receiverId then
      some { messageId := message._id, senderId := senderId }
    else none
  (s', emits, delayed)

/-- The body of the 500 ms `setTimeout` from the `send_message` handler:
`updateMessageStatus(id, 'delivered')` then notify the sender's room. -/
def runDelayedDelivered (s : ServerState) (d : DelayedUpdate) : ServerState × List Emit :=
  ({ s with messages := updateMessageStatus s.messages d.messageId MStatus.delivered },
   [{ target := Target.room d.senderId, event := "message_status_update",
      payload := Payload.pstatus d.messageId MStatus.delivered }])

/-- The `message_read` socket handler: `updateMessageStatus(id, 'read')`
then notify the sender's room. -/
def messageReadHandler (s : ServerState) (messageId senderId : String) : ServerState × List Emit :=
  ({ s with messages := updateMessageStatus s.messages messageId MStatus.read },
   [{ target := Target.room senderId, event := "message_status_update",
      payload := Payload.pstatus messageId MStatus.read }])

/-- Socket.io delivery: an emission to a room reaches someone exactly when
some live channel has joined that room (`presence` is the set of joined
user-id rooms); an emission to the sending socket always reaches it. -/
def deliverTo (presence : List String) (emits : List Emit) : List Emit :=
  emits.filter (fun e =>
    match e.target with
    | Target.room r => presence.contains r
    | Target.senderSocket => true)

/-! ## `src/server/routes.ts` — HTTP response sanitisation

Every route that returns a user does
`const { passwordHash, ...userWithoutPassword } = user` and serialises the
rest object.  A serialised user object is a list of key/value pairs (its
own enumerable properties); rest-destructuring removes exactly the
`passwordHash` property. -/

/-- A JSON-ish value, enough to serialise a stored user. -/
inductive JVal where
  | jstr (s : String)
  | jbool (b : Bool)
  | jnum (n : Nat)
  | jarr (l : List JVal)

/-- The own enumerable properties of a stored `IUser` object, in declaration
order; `socketId` is present only when set. -/
def userToJson (u : SUser) : List (String × JVal) :=
  [("_id", JVal.jstr u._id), ("username", JVal.jstr u.username),
   ("email", JVal.jstr u.email), ("passwordHash", JVal.jstr u.passwordHash),
   ("avatar", JVal.jstr u.avatar), ("contacts", JVal.jarr (u.contacts.map JVal.jstr)),
   ("isOnline", JVal.jbool u.isOnline), ("lastSeen", JVal.jnum u.lastSeen)] ++
  (match u.socketId with
   | some s => [("socketId", JVal.jstr s)]
   | none => [])

/-- `const { passwordHash, ...userWithoutPassword } = user`: every own
property except `passwordHash`. -/
def omitPasswordHash (o : List (String × JVal)) : List (String × JVal) :=
  o.filter (fun kv => kv.1 ≠ "passwordHash")

/-- User object returned by `POST /api/auth/register`. -/
def registerResponseUser (u : SUser) : List (String × JVal) :=
  omitPasswordHash (userToJson u)

/-- User object returned by `POST /api/auth/login`. -/
def loginResponseUser (u : SUser) : List (String × JVal) :=
  omitPasswordHash (userToJson u)

/-- User objects returned by `GET /api/users/search`. -/
def searchResponseUsers (us : List SUser) : List (List (String × JVal)) :=
  us.map (fun u => omitPasswordHash (userToJson u))

/-- User object returned by `GET /api/users/:id`. -/
def getUserResponseUser (u : SUser) : List (String × JVal) :=
  omitPasswordHash (userToJson u)

/-- Contact objects returned by `GET /api/users/:id/contacts`: look up each
contact id, drop the missing ones, sanitise each found user. -/
def contactsResponseUsers (users : List SUser) (contactIds : List String) :
    List (List (String × JVal)) :=
  (contactIds.filterMap (fun cid => getUserById users cid)).map
    (fun c => omitPasswordHash (userToJson c))

/-- `true` when a serialised object has no `passwordHash` property. -/
def hasNoPasswordHash (o : List (String × JVal)) : Bool :=
  !(o.any (fun kv => kv.1 == "passwordHash"))

/-! ## Client chat page — socket event handlers

State touched by the handlers: the `contacts` and `messages` React state,
the `pendingStatusRef` buffer (a plain object keyed by message id), the
fixed `currentUser` and `selectedContactId`, and the `message_read`
emissions the client sends back to the server.  `api.getUser` is the
parameter `fetchUser`. -/

/-- A contact entry in the client's contact list (`unreadCount || 0`
defaults a missing count to zero, so the count is a plain `Nat`). -/
structure Contact where
  _id : String
  username : String
  isOnline : Bool
  unreadCount : Nat
deriving DecidableEq, Repr

/-- Client-side state touched by the chat page's socket handlers. -/
structure ClientState where
  currentUserId : String
  selectedContactId : Option String
  contacts : List Contact
  messages : List Msg
  pendingStatus : List (String × MStatus)
  emittedReads : List (String × String)
deriving DecidableEq, Repr

/-- `pendingStatusRef.current[messageId] = status`: object keys are unique,
so set replaces an existing binding or appends a new one. -/
def setPending (l : List (String × MStatus)) (k : String) (v : MStatus) :
    List (String × MStatus) :=
  match l with
  | [] => [(k, v)]
  | kv :: rest => if kv.1 = k then (k, v) :: rest else kv :: setPending rest k v

/-- `pendingStatusRef.current[messageId]` lookup. -/
def getPending (l : List (String × MStatus)) (k : String) : Option MStatus :=
  (l.find? (fun kv => kv.1 = k)).map (fun kv => kv.2)

/-- `delete pendingStatusRef.current[messageId]`. -/
def removePending (l : List (String × MStatus)) (k : String) : List (String × MStatus) :=
  l.filter (fun kv => kv.1 ≠ k)

/-- The `receive_message` handler: (1) if the sender is someone else and
not yet a contact, fetch them and prepend to the contact list unless a
concurrent update already inserted them; (2) append the message unless a
message with the same id is already present; (3) if the chat with the
sender is not open, bump the sender's unread count, else emit
`message_read` to the server and mark the local copy read. -/
def receiveMessageHandler (fetchUser : String → Contact) (s : ClientState) (m : Msg) :
    ClientState :=
  let contacts1 :=
    if m.senderId ≠ s.currentUserId then
      if (s.contacts.find? (fun c => c._id = m.senderId)).isSome then s.contacts
      else
        let u := fetchUser m.senderId
        if (s.contacts.find? (fun c => c._id = u._id)).isSome then s.contacts
        else u :: s.contacts
    else s.contacts
  let messages1 :=
    if (s.messages.find? (fun mm => mm._id = m._id)).isSome then s.messages
    else s.messages ++ [m]
  if m.senderId ≠ s.currentUserId then
    if s.selectedContactId ≠ some m.senderId then
      { s with contacts := contacts1.map (fun c =>
                 if c._id = m.senderId then { c with unreadCount := c.unreadCount + 1 } else c),
               messages := messages1 }
    else
      { s with contacts := contacts1,
               messages := messages1.map (fun mm =>
                 if mm._id = m._id then { mm with status := MStatus.read } else mm),
               emittedReads := s.emittedReads ++ [(m._id, m.senderId)] }
  else
    { s with contacts := contacts1, messages := messages1 }

/-- The `message_sent` handler: drop provisional (`temp-`) messages, skip if
the confirmed id is already present, otherwise apply and clear any pending
buffered status for that id, clamp the status to `read`-or-`sent`, and
append the confirmed message. -/
def messageSentHandler (s : ClientState) (m : Msg) : ClientState :=
  let filtered := s.messages.filter (fun mm => !(mm._id.startsWith "temp-"))
  if (filtered.find? (fun mm => mm._id = m._id)).isSome then
    { s with messages := filtered }
  else
    let pending := getPending s.pendingStatus m._id
    let withStatus := match pending with
      | some st => { m with status := st }
      | none => m
    let pendingAfter := match pending with
      | some _ => removePending s.pendingStatus m._id
      | none => s.pendingStatus
    let finalMessage :=
      { withStatus with status := if withStatus.status = MStatus.read
                                  then MStatus.read else MStatus.sent }
    { s with messages := filtered ++ [finalMessage], pendingStatus := pendingAfter }

/-- The `message_status_update` handler: apply the status to the local copy
when the message is present, otherwise buffer it keyed by message id. -/
def messageStatusUpdateHandler (s : ClientState) (messageId : String) (st : MStatus) :
    ClientState :=
  if (s.messages.find? (fun mm => mm._id = messageId)).isSome then
    { s with messages := s.messages.map (fun mm =>
               if mm._id = messageId then { mm with status := st } else mm) }
  else
    { s with pendingStatus := setPending s.pendingStatus messageId st }

/-- `n` repeated deliveries of the same `receive_message` event. -/
def receiveN (fetchUser : String → Contact) (m : Msg) : Nat → ClientState → ClientState
  | 0, s => s
  | n + 1, s => receiveN fetchUser m n (receiveMessageHandler fetchUser s m)

/-- How many entries of the contact list carry the given id. -/
def countContact (l : List Contact) (cid : String) : Nat :=
  l.countP (fun c => c._id = cid)

/-- Whether some local message carries the given id. -/
def hasMsg (msgs : List Msg) (messageId : String) : Bool :=
  (msgs.find? (fun m => m._id = messageId)).isSome

/-! ## Concrete scenario for the status-regression bug (C1) -/

/-- Demo sender, online. -/
def c1Alice : SUser :=
  { _id := "u1", username := "alice", email := "alice@test.com", passwordHash := "h1",
    avatar := "av1", contacts := ["u2"], isOnline := true, lastSeen := 0, socketId := none }

/-- Demo receiver, online (so the delayed `'delivered'` update is
scheduled). -/
def c1Bob : SUser :=
  { _id := "u2", username := "bob", email := "bob@test.com", passwordHash := "h2",
    avatar := "av2", contacts := ["u1"], isOnline := true, lastSeen := 0, socketId := none }

/-- Initial server state for the regression scenario. -/
def c1State0 : ServerState := { users := [c1Alice, c1Bob], messages := [] }

/-- Alice sends Bob a message; Bob is online, so the handler schedules the
delayed `'delivered'` update. -/
def c1Send : ServerState × List Emit × Option DelayedUpdate :=
  sendMessageHandler c1State0 "u2" "u1" "ciphertext" "m1" 100

/-- Bob opens the chat at once: `message_read` marks `"m1"` read before the
500 ms timer fires. -/
def c1AfterRead : ServerState := (messageReadHandler c1Send.1 "m1" "u1").1

/-- The 500 ms timer then fires and runs the scheduled update. -/
def c1AfterDelayed : ServerState :=
  (runDelayedDelivered c1AfterRead { messageId := "m1", senderId := "u1" }).1

/-! ## Fixtures for closed statements -/

/-- A stored user and message for the C9 witness. -/
def demoUser9 : SUser :=
  { _id := "u9", username := "uma", email := "u@test.com", passwordHash := "h9",
    avatar := "a9", contacts := [], isOnline := true, lastSeen := 3, socketId := none }

/-- A stored message for the C9 witness. -/
def demoMsg9 : Msg :=
  { _id := "m9", senderId := "u9", receiverId := "u8", encryptedContent := "c9",
    timestamp := 4, status := MStatus.sent }

/-- The message `storage.sendMessage` persists for a send request. -/
def sentMsg (freshId senderId receiverId content : String) (now : Nat) : Msg :=
  { _id := freshId, senderId := senderId, receiverId := receiverId,
    encryptedContent := content, timestamp := now, status := MStatus.sent }

/-- Server store with one offline registered user, for the C5 witness. -/
def c5Server : ServerState :=
  { users := [{ _id := "r1", username := "ruth", email := "r@test.com", passwordHash := "h",
                avatar := "a", contacts := [], isOnline := false, lastSeen := 0,
                socketId := none }],
    messages := [] }

/-- Client state of a sender with an empty local cache, for the C6
witness. -/
def c6State : ClientState :=
  { currentUserId := "u1", selectedContactId := none, contacts := [], messages := [],
    pendingStatus := [], emittedReads := [] }

/-- The server-confirmed message whose ack arrives after its read update,
for the C6 witness. -/
def c6Msg : Msg :=
  { _id := "X", senderId := "u1", receiverId := "u2", encryptedContent := "c6",
    timestamp := 9, status := MStatus.sent }

/-- A contact fetcher returning a fresh contact with the requested id, for
the C7 witness. -/
def c7Fetch (userId : String) : Contact :=
  { _id := userId, username := "fetched", isOnline := true, unreadCount := 0 }

/-- Client state of a receiver with an empty contact list, for the C7
witness. -/
def c7State : ClientState :=
  { currentUserId := "u2", selectedContactId := none, contacts := [], messages := [],
    pendingStatus := [], emittedReads := [] }

/-- A first-ever message from the unknown sender `"u3"`, for the C7
witness. -/
def c7Msg : Msg :=
  { _id := "mX", senderId := "u3", receiverId := "u2", encryptedContent := "c7",
    timestamp := 11, status := MStatus.sent }

/-! ## Theorems -/

/-! ### Generic list helpers -/

/-- A failed search on a cons cell fails on the head and on the tail. -/
theorem find?_none_cons {α : Type} {p : α → Bool} {x : α} {l : List α}
    (h : (x :: l).find? p = none) : p x = false ∧ l.find? p = none := by
  cases hx : p x with
  | false =>
    refine ⟨rfl, ?_⟩
    simpa [List.find?, hx] using h
  | true => simp [List.find?, hx] at h

/-- Searching an append whose left part has no hit searches the right part. -/
theorem find?_append_of_none {α : Type} {p : α → Bool} {l₁ : List α} (l₂ : List α)
    (h : l₁.find? p = none) : (l₁ ++ l₂).find? p = l₂.find? p := by
  induction l₁ with
  | nil => rfl
  | cons x l ih =>
    obtain ⟨hx, hl⟩ := find?_none_cons h
    simpa [List.find?, hx] using ih hl

/-- Filtering cannot create a hit for a search that already failed. -/
theorem find?_filter_of_none {α : Type} {p : α → Bool} {l : List α} (q : α → Bool)
    (h : l.find? p = none) : (l.filter q).find? p = none := by
  induction l with
  | nil => rfl
  | cons x l ih =>
    obtain ⟨hx, hl⟩ := find?_none_cons h
    cases hq : q x with
    | false => simpa [List.filter_cons, hq] using ih hl
    | true => simpa [List.filter_cons, hq, List.find?, hx] using ih hl

/-- A search fails exactly when the predicate counts no elements. -/
theorem find?_none_iff_countP_zero {α : Type} (p : α → Bool) (l : List α) :
    l.find? p = none ↔ l.countP p = 0 := by
  induction l with
  | nil => simp
  | cons x l ih =>
    cases hx : p x with
    | false => simp [List.find?, hx, List.countP_cons, ih]
    | true => simp [List.find?, hx, List.countP_cons]

/-- Mapping a function that preserves the predicate preserves the count. -/
theorem countP_map_of_preserve {α : Type} (p : α → Bool) (f : α → α) (l : List α)
    (hf : ∀ x, p (f x) = p x) : (l.map f).countP p = l.countP p := by
  induction l with
  | nil => rfl
  | cons x l ih => simp [List.countP_cons, hf x, ih]

/-- Mapping a function that preserves the predicate preserves whether a
search succeeds. -/
theorem find?_isSome_map_of_preserve {α : Type} (p : α → Bool) (f : α → α) (l : List α)
    (hf : ∀ x, p (f x) = p x) : ((l.map f).find? p).isSome = (l.find? p).isSome := by
  induction l with
  | nil => rfl
  | cons x l ih =>
    cases hx : p x with
    | false => simpa [List.find?, hx, hf x] using ih
    | true => simp [List.find?, hx, hf x]

/-! ### C1 — the status-regression bug -/

/-- **C1.** The claim says a message can never regress from `read`; the
code violates it.  `MemoryStorage.updateMessageStatus` overwrites the
status unconditionally, so when the `send_message` handler has scheduled
the 500 ms delayed `'delivered'` update (receiver online) and the receiver
reads the message before the timer fires, the timer then regresses the
stored status from `read` back to `delivered`.  This theorem evaluates the
embedded code on that failing run. -/
theorem c1_delayed_delivered_overwrites_read :
    c1Send.2.2 = some { messageId := "m1", senderId := "u1" } ∧
    statusOf c1AfterRead.messages "m1" = some MStatus.read ∧
    statusOf c1AfterDelayed.messages "m1" = some MStatus.delivered := by
  refine ⟨rfl, rfl, rfl⟩

/-! ### C8 — idempotence of marking read -/

/-- Rewriting the same status twice changes nothing the second time. -/
theorem updateMessageStatus_idem (msgs : List Msg) (messageId : String) (st : MStatus) :
    updateMessageStatus (updateMessageStatus msgs messageId st) messageId st
      = updateMessageStatus msgs messageId st := by
  induction msgs with
  | nil => rfl
  | cons m rest ih =>
    by_cases h : m._id = messageId
    · simp [updateMessageStatus, h]
    · simp [updateMessageStatus, h, ih]

/-- **C8.** Marking read is idempotent: running the `message_read` handler
twice for the same message id leaves the same stored server state as
running it once, and the second run is an ordinary total computation on an
already-`read` store — it cannot error. -/
theorem c8_mark_read_idempotent (s : ServerState) (messageId senderId : String) :
    (messageReadHandler (messageReadHandler s messageId senderId).1 messageId senderId).1
      = (messageReadHandler s messageId senderId).1 := by
  simp [messageReadHandler, updateMessageStatus_idem]

/-! ### C9 — unknown ids are no-ops -/

/-- `updateUserStatus` on an id with no stored user changes nothing. -/
theorem updateUserStatus_unknown_id (users : List SUser) (userId : String) (b : Bool)
    (sock : Option String) (now : Nat) (h : getUserById users userId = none) :
    updateUserStatus users userId b sock now = users := by
  induction users with
  | nil => rfl
  | cons u rest ih =>
    obtain ⟨hx, hl⟩ := find?_none_cons h
    have hne : ¬(u._id = userId) := by simpa using hx
    simp [updateUserStatus, hne, ih hl]

/-- `updateMessageStatus` on an id with no stored message changes nothing. -/
theorem updateMessageStatus_unknown_id (msgs : List Msg) (messageId : String) (st : MStatus)
    (h : msgs.find? (fun m => m._id = messageId) = none) :
    updateMessageStatus msgs messageId st = msgs := by
  induction msgs with
  | nil => rfl
  | cons m rest ih =>
    obtain ⟨hx, hl⟩ := find?_none_cons h
    have hne : ¬(m._id = messageId) := by simpa using hx
    simp [updateMessageStatus, hne, ih hl]

/-- **C9.** Operations on an unknown identity or unknown message id are
no-ops: when no stored user carries `unknownId`, `updateUserStatus` returns
the user table unchanged, and when no stored message carries it,
`updateMessageStatus` returns the message list unchanged.  Both are total
functions of the embedding, so neither can throw. -/
theorem c9_unknown_id_ops_are_noops (users : List SUser) (msgs : List Msg)
    (unknownId : String) (b : Bool) (sock : Option String) (now : Nat) (st : MStatus)
    (hu : getUserById users unknownId = none)
    (hm : msgs.find? (fun m => m._id = unknownId) = none) :
    updateUserStatus users unknownId b sock now = users ∧
    updateMessageStatus msgs unknownId st = msgs :=
  ⟨updateUserStatus_unknown_id users unknownId b sock now hu,
   updateMessageStatus_unknown_id msgs unknownId st hm⟩



/-- Witness for C9 at a concrete store and a concrete unknown id. -/
theorem c9_unknown_id_ops_are_noops_witness :
    getUserById [demoUser9] "ghost" = none ∧
    [demoMsg9].find? (fun m => m._id = "ghost") = none ∧
    updateUserStatus [demoUser9] "ghost" false none 7 = [demoUser9] ∧
    updateMessageStatus [demoMsg9] "ghost" MStatus.read = [demoMsg9] :=
  ⟨by decide, by decide,
   (c9_unknown_id_ops_are_noops [demoUser9] [demoMsg9] "ghost" false none 7 MStatus.read
      (by decide) (by decide)).1,
   (c9_unknown_id_ops_are_noops [demoUser9] [demoMsg9] "ghost" false none 7 MStatus.read
      (by decide) (by decide)).2⟩

/-! ### C5 — the send pipeline -/


/-- Status of a freshly appended message. -/
theorem statusOf_append_new (msgs : List Msg) (m : Msg)
    (h : msgs.find? (fun mm => mm._id = m._id) = none) :
    statusOf (msgs ++ [m]) m._id = some m.status := by
  unfold statusOf
  rw [find?_append_of_none _ h]
  simp [List.find?]

/-- **C5.** The `send_message` handler: (1) first persists the new message
with status `sent` (the store after the handler is the old store plus
exactly that message, and its stored status is `sent`); (2) then emits
`receive_message` carrying the full persisted message to the recipient's
room, which reaches a channel only if the recipient has one — with no
channel joined to the room the push reaches nobody, so the step is
skipped; (3) then acknowledges the sender's socket with the same persisted
message carrying the server-assigned id.  When the recipient is offline
(no channel and stored `isOnline = false`) the delayed update is not
scheduled and the stored message keeps status `sent`. -/
theorem c5_send_message_pipeline (s : ServerState)
    (receiverId senderId content freshId : String) (now : Nat) (presence : List String)
    (hfresh : s.messages.find? (fun m => m._id = freshId) = none) :
    (sendMessageHandler s receiverId senderId content freshId now).1.messages
      = s.messages ++ [sentMsg freshId senderId receiverId content now] ∧
    (sendMessageHandler s receiverId senderId content freshId now).2.1
      = [{ target := Target.room receiverId, event := "receive_message",
           payload := Payload.pmsg (sentMsg freshId senderId receiverId content now) },
         { target := Target.senderSocket, event := "message_sent",
           payload := Payload.pmsg (sentMsg freshId senderId receiverId content now) }] ∧
    statusOf (sendMessageHandler s receiverId senderId content freshId now).1.messages freshId
      = some MStatus.sent ∧
    (presence.contains receiverId = false →
      deliverTo presence (sendMessageHandler s receiverId senderId content freshId now).2.1
        = [{ target := Target.senderSocket, event := "message_sent",
             payload := Payload.pmsg (sentMsg freshId senderId receiverId content now) }]) ∧
    (receiverOnline s.users receiverId = false →
      (sendMessageHandler s receiverId senderId content freshId now).2.2 = none) := by
  refine ⟨rfl, rfl, ?_, ?_, ?_⟩
  · exact statusOf_append_new s.messages (sentMsg freshId senderId receiverId content now) hfresh
  · intro h
    have hmem : receiverId ∉ presence := by simpa using h
    simp [sendMessageHandler, sendMessage, deliverTo, sentMsg, hmem]
  · intro h
    simp [sendMessageHandler, sendMessage, h]


/-- Witness for C5: a concrete send to an offline recipient with an empty
presence set persists the message with status `sent`, delivers only the
sender acknowledgment, and schedules no delayed update. -/
theorem c5_send_message_pipeline_witness :
    (sendMessageHandler c5Server "r1" "s1" "ct" "m5" 42).1.messages
      = c5Server.messages ++ [sentMsg "m5" "s1" "r1" "ct" 42] ∧
    statusOf (sendMessageHandler c5Server "r1" "s1" "ct" "m5" 42).1.messages "m5"
      = some MStatus.sent ∧
    deliverTo [] (sendMessageHandler c5Server "r1" "s1" "ct" "m5" 42).2.1
      = [{ target := Target.senderSocket, event := "message_sent",
           payload := Payload.pmsg (sentMsg "m5" "s1" "r1" "ct" 42) }] ∧
    (sendMessageHandler c5Server "r1" "s1" "ct" "m5" 42).2.2 = none := by
  have H := c5_send_message_pipeline c5Server "r1" "s1" "ct" "m5" 42 [] (by decide)
  exact ⟨H.1, H.2.2.1, H.2.2.2.1 (by decide), H.2.2.2.2 (by decide)⟩

/-! ### C10 — password hashes never leave the API -/

/-- Rest-destructuring away `passwordHash` leaves no such property. -/
theorem hasNoPasswordHash_omit (o : List (String × JVal)) :
    hasNoPasswordHash (omitPasswordHash o) = true := by
  induction o with
  | nil => rfl
  | cons kv rest ih =>
    by_cases h : kv.1 = "passwordHash"
    · simpa [omitPasswordHash, List.filter_cons, h] using ih
    · simp [omitPasswordHash, hasNoPasswordHash, List.filter_cons, h]

/-- **C10.** Every user object returned by the HTTP endpoints — register,
login, user search, get user, get contacts — omits the `passwordHash`
property, for every stored user and every stored hash value. -/
theorem c10_responses_omit_passwordHash (u : SUser) (us : List SUser)
    (users : List SUser) (contactIds : List String) :
    hasNoPasswordHash (registerResponseUser u) = true ∧
    hasNoPasswordHash (loginResponseUser u) = true ∧
    (searchResponseUsers us).all hasNoPasswordHash = true ∧
    hasNoPasswordHash (getUserResponseUser u) = true ∧
    (contactsResponseUsers users contactIds).all hasNoPasswordHash = true := by
  refine ⟨hasNoPasswordHash_omit _, hasNoPasswordHash_omit _, ?_,
          hasNoPasswordHash_omit _, ?_⟩
  · rw [List.all_eq_true]
    intro o ho
    obtain ⟨c, _, rfl⟩ := List.mem_map.1 ho
    exact hasNoPasswordHash_omit _
  · rw [List.all_eq_true]
    intro o ho
    obtain ⟨c, _, rfl⟩ := List.mem_map.1 ho
    exact hasNoPasswordHash_omit _



/-- The two orderings of a pair produce the same sorted pair. -/
theorem jsSort2_comm (a b : String) : jsSort2 a b = jsSort2 b a := by
  unfold jsSort2
  rcases lt_trichotomy a b with h | h | h
  · rw [if_neg (asymm h), if_pos h]
  · rw [h]
  · rw [if_pos h, if_neg (asymm h)]

/-- **C2.** Key derivation is commutative: for every hash function and every
pair of identity strings `a` and `b`, `generateSharedKey` applied to
`(a, b)` and to `(b, a)` produces the same key, because the two ids are
sorted into canonical order before being joined and hashed. -/
theorem c2_generateSharedKey_comm (hash : String → String) (a b : String) :
    generateSharedKey hash a b = generateSharedKey hash b a := by
  unfold generateSharedKey
  rw [jsSort2_comm]

/-- **C3.** Encryption round-trip: for every plaintext `p` and key `k`,
whenever the underlying crypto-js pipeline recovers `p` from
`aesEncrypt p k` under `k` (its documented behaviour for a matching key),
the repository wrapper `decryptMessage` applied to
`encryptMessage p k` under `k` returns exactly `p`. -/
theorem c3_decrypt_encrypt_roundtrip (aesDecryptUtf8 : String → String → Option String)
    (aesEncrypt : String → String → String) (p k : String)
    (h : aesDecryptUtf8 (aesEncrypt p k) k = some p) :
    decryptMessage aesDecryptUtf8 (encryptMessage aesEncrypt p k) k = p := by
  unfold decryptMessage encryptMessage
  rw [h]

/-- Witness for C3 at a concrete plaintext, key and cipher. -/
theorem c3_decrypt_encrypt_roundtrip_witness :
    toyDecrypt (toyEncrypt "hello" "key1") "key1" = some "hello" ∧
    decryptMessage toyDecrypt (encryptMessage toyEncrypt "hello" "key1") "key1" = "hello" :=
  ⟨by decide, c3_decrypt_encrypt_roundtrip toyDecrypt toyEncrypt "hello" "key1" (by decide)⟩

/-- **C4, counterexample.** The claim says `decryptMessage` never returns the
original plaintext under a wrong key.  But failure is signalled in-band by
the fixed placeholder string, so sealing the placeholder string itself
under `"key1"` and opening under the wrong key `"key2"` (the pipeline
fails) returns exactly the original plaintext. -/
theorem c4_wrong_key_can_return_plaintext :
    decryptMessage toyDecrypt (encryptMessage toyEncrypt "⚠️ Error decrypting message" "key1") "key2"
      = "⚠️ Error decrypting message" := by decide

/-- **C4, amended.** `decryptMessage` fails soft: whenever the underlying
crypto-js pipeline fails (models a thrown error on wrong key, malformed or
corrupted ciphertext), the wrapper catches it and returns the fixed
placeholder string `"⚠️ Error decrypting message"` — an in-band string, not
a typed failure value — and that result differs from the original plaintext
`p` for every `p` other than the placeholder string itself. -/
theorem c4_decrypt_fails_soft (aesDecryptUtf8 : String → String → Option String)
    (c k : String) (h : aesDecryptUtf8 c k = none) :
    decryptMessage aesDecryptUtf8 c k = "⚠️ Error decrypting message" ∧
    ∀ p : String, p ≠ "⚠️ Error decrypting message" → decryptMessage aesDecryptUtf8 c k ≠ p := by
  unfold decryptMessage
  rw [h]
  exact ⟨rfl, fun p hp hc => hp hc.symm⟩

/-- Witness for C4 (amended) at a concrete ciphertext, wrong key and
plaintext. -/
theorem c4_decrypt_fails_soft_witness :
    toyDecrypt (toyEncrypt "attack at dawn" "key1") "key2" = none ∧
    decryptMessage toyDecrypt (toyEncrypt "attack at dawn" "key1") "key2"
      = "⚠️ Error decrypting message" ∧
    decryptMessage toyDecrypt (toyEncrypt "attack at dawn" "key1") "key2" ≠ "attack at dawn" :=
  ⟨by decide,
   (c4_decrypt_fails_soft toyDecrypt (toyEncrypt "attack at dawn" "key1") "key2" (by decide)).1,
   (c4_decrypt_fails_soft toyDecrypt (toyEncrypt "attack at dawn" "key1") "key2" (by decide)).2
     "attack at dawn" (by decide)⟩

/-! ### C6 — early status updates are buffered and applied -/

/-- Looking up a key just set finds the set value. -/
theorem getPending_setPending_same (l : List (String × MStatus)) (k : String) (v : MStatus) :
    getPending (setPending l k v) k = some v := by
  induction l with
  | nil => simp [setPending, getPending, List.find?]
  | cons kv rest ih =>
    by_cases h : kv.1 = k
    · simp [setPending, getPending, List.find?, h]
    · simpa [setPending, getPending, List.find?, h] using ih

/-- **C6.** A status update arriving before the referenced message exists
locally is buffered keyed by message identity and applied when the message
materialises: when no local message carries id `m._id`, running the
`message_status_update` handler with `read` stores the update in the
pending buffer, and then running the `message_sent` handler for the
acknowledged message `m` produces a local copy of `m._id` with status
`read`, not `sent`. -/
theorem c6_buffered_read_applied (s : ClientState) (m : Msg)
    (habsent : s.messages.find? (fun mm => mm._id = m._id) = none) :
    getPending (messageStatusUpdateHandler s m._id MStatus.read).pendingStatus m._id
      = some MStatus.read ∧
    statusOf (messageSentHandler (messageStatusUpdateHandler s m._id MStatus.read) m).messages
      m._id = some MStatus.read := by
  have hisSome : (s.messages.find? (fun mm => mm._id = m._id)).isSome = false := by
    rw [habsent]; rfl
  have hfil : (s.messages.filter (fun mm => !(mm._id.startsWith "temp-"))).find?
      (fun mm => mm._id = m._id) = none :=
    find?_filter_of_none _ habsent
  constructor
  · simp [messageStatusUpdateHandler, hisSome, getPending_setPending_same]
  · have hmsgs : (messageSentHandler (messageStatusUpdateHandler s m._id MStatus.read) m).messages
        = (s.messages.filter (fun mm => !(mm._id.startsWith "temp-")))
          ++ [{ m with status := MStatus.read }] := by
      simp [messageStatusUpdateHandler, hisSome, messageSentHandler, hfil,
            getPending_setPending_same]
    rw [hmsgs]
    unfold statusOf
    rw [find?_append_of_none _ hfil]
    simp [List.find?]

/-- Witness for C6 at a concrete client state and message. -/
theorem c6_buffered_read_applied_witness :
    c6State.messages.find? (fun mm => mm._id = c6Msg._id) = none ∧
    statusOf (messageSentHandler (messageStatusUpdateHandler c6State c6Msg._id MStatus.read)
      c6Msg).messages c6Msg._id = some MStatus.read :=
  ⟨by decide, (c6_buffered_read_applied c6State c6Msg (by decide)).2⟩

/-! ### C7 — unknown senders materialise in the contact list exactly once -/

/-- The `receive_message` handler never touches the current-user id. -/
theorem receive_currentUserId (f : String → Contact) (s : ClientState) (m : Msg) :
    (receiveMessageHandler f s m).currentUserId = s.currentUserId := by
  by_cases h1 : m.senderId = s.currentUserId
  · simp [receiveMessageHandler, h1]
  · by_cases h2 : s.selectedContactId = some m.senderId <;>
      simp [receiveMessageHandler, h1, h2]

/-- Bumping an unread count does not change a contact's id, so it does not
change how the contact counts against an id predicate. -/
theorem bump_preserves_id_pred (sid cid : String) :
    ∀ c : Contact,
      (decide ((if c._id = cid then { c with unreadCount := c.unreadCount + 1 } else c)._id
        = sid) : Bool) = decide (c._id = sid) := by
  intro c
  by_cases hc : c._id = cid <;> simp [hc]

/-- One delivery of a message from an unknown sender (not the current user)
inserts the fetched sender, making its contact count exactly one. -/
theorem receive_establishes_contact (f : String → Contact) (s : ClientState) (m : Msg)
    (hsender : m.senderId ≠ s.currentUserId)
    (hfetch : (f m.senderId)._id = m.senderId)
    (hzero : countContact s.contacts m.senderId = 0) :
    countContact (receiveMessageHandler f s m).contacts m.senderId = 1 := by
  have hfind : s.contacts.find? (fun c => c._id = m.senderId) = none :=
    (find?_none_iff_countP_zero _ _).2 hzero
  have hfindS : (s.contacts.find? (fun c => c._id = m.senderId)).isSome = false := by
    rw [hfind]; rfl
  have hfind2 : s.contacts.find? (fun c => c._id = (f m.senderId)._id) = none := by
    rw [hfetch]; exact hfind
  have hfindS2 : (s.contacts.find? (fun c => c._id = (f m.senderId)._id)).isSome = false := by
    rw [hfind2]; rfl
  have hcount : countContact ((f m.senderId) :: s.contacts) m.senderId = 1 := by
    unfold countContact at hzero ⊢
    rw [List.countP_cons]
    simp [hfetch, hzero]
  by_cases h2 : s.selectedContactId = some m.senderId
  · have hc : (receiveMessageHandler f s m).contacts = (f m.senderId) :: s.contacts := by
      simp [receiveMessageHandler, hsender, h2, hfindS, hfindS2]
    rw [hc]; exact hcount
  · have hc : (receiveMessageHandler f s m).contacts
        = ((f m.senderId) :: s.contacts).map (fun c =>
            if c._id = m.senderId then { c with unreadCount := c.unreadCount + 1 } else c) := by
      simp [receiveMessageHandler, hsender, h2, hfindS, hfindS2]
    rw [hc]
    unfold countContact
    rw [countP_map_of_preserve _ _ _ (bump_preserves_id_pred m.senderId m.senderId)]
    exact hcount

/-- Once the sender counts exactly once among the contacts, a repeated
delivery of a message from that sender keeps the count at exactly one. -/
theorem receive_keeps_contact_count (f : String → Contact) (s : ClientState) (m : Msg)
    (hsender : m.senderId ≠ s.currentUserId)
    (hone : countContact s.contacts m.senderId = 1) :
    countContact (receiveMessageHandler f s m).contacts m.senderId = 1 := by
  have hfindS : (s.contacts.find? (fun c => c._id = m.senderId)).isSome = true := by
    cases hx : s.contacts.find? (fun c => c._id = m.senderId) with
    | none =>
      rw [find?_none_iff_countP_zero] at hx
      unfold countContact at hone
      omega
    | some c => rfl
  by_cases h2 : s.selectedContactId = some m.senderId
  · have hc : (receiveMessageHandler f s m).contacts = s.contacts := by
      simp [receiveMessageHandler, hsender, h2, hfindS]
    rw [hc]; exact hone
  · have hc : (receiveMessageHandler f s m).contacts
        = s.contacts.map (fun c =>
            if c._id = m.senderId then { c with unreadCount := c.unreadCount + 1 } else c) := by
      simp [receiveMessageHandler, hsender, h2, hfindS]
    rw [hc]
    unfold countContact at hone ⊢
    rw [countP_map_of_preserve _ _ _ (bump_preserves_id_pred m.senderId m.senderId)]
    exact hone

/-- After any delivery of a message from someone else, a local copy with
that message id is present (deduplicated, so also after redeliveries). -/
theorem receive_has_msg (f : String → Contact) (s : ClientState) (m : Msg)
    (hsender : m.senderId ≠ s.currentUserId) :
    hasMsg (receiveMessageHandler f s m).messages m._id = true := by
  have hread : ∀ mm : Msg,
      (decide ((if mm._id = m._id then { mm with status := MStatus.read } else mm)._id
        = m._id) : Bool) = decide (mm._id = m._id) := by
    intro mm
    by_cases hmm : mm._id = m._id <;> simp [hmm]
  have hmsgs1 : hasMsg (if (s.messages.find? (fun mm => mm._id = m._id)).isSome
      then s.messages else s.messages ++ [m]) m._id = true := by
    cases hx : (s.messages.find? (fun mm => mm._id = m._id)).isSome with
    | true => simp [hasMsg, hx]
    | false =>
      have hnone : s.messages.find? (fun mm => mm._id = m._id) = none := by
        cases hy : s.messages.find? (fun mm => mm._id = m._id) with
        | none => rfl
        | some mm => rw [hy] at hx; exact absurd hx (by simp)
      unfold hasMsg
      rw [if_neg (by simp : ¬(false = true))]
      rw [find?_append_of_none _ hnone]
      simp [List.find?]
  by_cases h2 : s.selectedContactId = some m.senderId
  · have hc : (receiveMessageHandler f s m).messages
        = (if (s.messages.find? (fun mm => mm._id = m._id)).isSome
           then s.messages else s.messages ++ [m]).map (fun mm =>
             if mm._id = m._id then { mm with status := MStatus.read } else mm) := by
      simp [receiveMessageHandler, hsender, h2]
    rw [hc]
    unfold hasMsg at hmsgs1 ⊢
    rw [find?_isSome_map_of_preserve _ _ _ hread]
    exact hmsgs1
  · have hc : (receiveMessageHandler f s m).messages
        = (if (s.messages.find? (fun mm => mm._id = m._id)).isSome
           then s.messages else s.messages ++ [m]) := by
      simp [receiveMessageHandler, hsender, h2]
    rw [hc]; exact hmsgs1

/-- Iterated redelivery preserves the count-one and message-present
invariant. -/
theorem receiveN_keeps (f : String → Contact) (m : Msg) (n : Nat) :
    ∀ s : ClientState, m.senderId ≠ s.currentUserId →
      countContact s.contacts m.senderId = 1 → hasMsg s.messages m._id = true →
      countContact (receiveN f m n s).contacts m.senderId = 1 ∧
      hasMsg (receiveN f m n s).messages m._id = true := by
  induction n with
  | zero => exact fun s _ h2 h3 => ⟨h2, h3⟩
  | succ k ih =>
    intro s h1 h2 h3
    refine ih (receiveMessageHandler f s m) ?_ ?_ ?_
    · rw [receive_currentUserId]; exact h1
    · exact receive_keeps_contact_count f s m h1 h2
    · exact receive_has_msg f s m h1

/-- **C7.** When an inbound message's sender is not a known contact, the
`receive_message` handler fetches and inserts that sender into the contact
list in the same handler pass that appends the message, and across any
number of repeated deliveries of the same message id the sender appears in
the contact list exactly once and the message is stored exactly once
(deduplicated by final message identity). -/
theorem c7_unknown_sender_inserted_once (f : String → Contact) (s : ClientState) (m : Msg)
    (n : Nat)
    (hsender : m.senderId ≠ s.currentUserId)
    (hfetch : (f m.senderId)._id = m.senderId)
    (hunknown : countContact s.contacts m.senderId = 0) :
    countContact (receiveN f m (n + 1) s).contacts m.senderId = 1 ∧
    hasMsg (receiveN f m (n + 1) s).messages m._id = true := by
  have hstep : receiveN f m (n + 1) s = receiveN f m n (receiveMessageHandler f s m) := rfl
  rw [hstep]
  refine receiveN_keeps f m n (receiveMessageHandler f s m) ?_ ?_ ?_
  · rw [receive_currentUserId]; exact hsender
  · exact receive_establishes_contact f s m hsender hfetch hunknown
  · exact receive_has_msg f s m hsender

/-- Witness for C7: two deliveries of the same first-ever message from the
unknown sender `"u3"` leave exactly one `"u3"` contact entry and the
message present. -/
theorem c7_unknown_sender_inserted_once_witness :
    c7Msg.senderId ≠ c7State.currentUserId ∧
    (c7Fetch c7Msg.senderId)._id = c7Msg.senderId ∧
    countContact c7State.contacts c7Msg.senderId = 0 ∧
    countContact (receiveN c7Fetch c7Msg 2 c7State).contacts c7Msg.senderId = 1 ∧
    hasMsg (receiveN c7Fetch c7Msg 2 c7State).messages c7Msg._id = true :=
  ⟨by decide, by decide, by decide,
   (c7_unknown_sender_inserted_once c7Fetch c7State c7Msg 1 (by decide) (by decide)
      (by decide)).1,
   (c7_unknown_sender_inserted_once c7Fetch c7State c7Msg 1 (by decide) (by decide)
      (by decide)).2⟩

end SecureChat
